import Mathlib

/-!
Shallow embedding of the SCIoT split-computing client/server repository,
verifying its specification claim by claim.

Numeric values (Python floats) are modelled as rationals `ℚ`; byte strings
are modelled as `List Nat` (one entry per byte, each `< 256`).
-/

namespace SCIoT

/-! ## Offloading optimiser (`simulated_results/simulated_scenario.py`) -/

/-- Partial sums, as `np.cumsum`: `cumsum [a, b, c] = [a, a+b, a+b+c]`. -/
def cumsum : List ℚ → List ℚ
  | [] => []
  | x :: xs => x :: (cumsum xs).map (fun y => x + y)

/-- Minimum value of a list (`0` on the empty list, which callers never pass). -/
def listMin : List ℚ → ℚ
  | [] => 0
  | [x] => x
  | x :: y :: ys => min x (listMin (y :: ys))

/-- Index of the first minimal element, as `np.argmin` (ties go to the lowest index). -/
def argminIdx : List ℚ → Nat
  | [] => 0
  | [_] => 0
  | x :: y :: ys => if x ≤ listMin (y :: ys) then 0 else argminIdx (y :: ys) + 1

/-- The `network_times` argument of `offloading_algo`: a numpy scalar
(`net.ndim == 0`) or a vector. -/
inductive NetArg where
  | scalar (x : ℚ)
  | vec (xs : List ℚ)

/-- The normalisation of `network_times` to length `N + 1` performed at the top of
`offloading_algo` (`simulated_scenario.py` lines 21-32).  A length-`N` vector is
extended by `np.append(net, net[-1])`; `net[-1]` on an empty array raises, which
is modelled by `Except.error`. -/
def normalizeNet (N : Nat) : NetArg → Except String (List ℚ)
  | .scalar x => .ok (List.replicate (N + 1) x)
  | .vec xs =>
      if xs.length = N + 1 then .ok xs
      else if xs.length = N then
        match xs.getLast? with
        | some last => .ok (xs ++ [last])
        | none => .error "IndexError: net[-1] on empty array"
      else if xs.length = 1 then .ok (List.replicate (N + 1) (xs.headD 0))
      else .error "network_times deve avere lunghezza 1, N o N+1"

/-- `dev_prefix = np.concatenate([[0.0], np.cumsum(dev)])`. -/
def devPrefixList (dev : List ℚ) : List ℚ := 0 :: cumsum dev

/-- `edge_suffix = np.concatenate([np.cumsum(edge[::-1])[::-1], [0]])`. -/
def edgeSuffixList (edge : List ℚ) : List ℚ := (cumsum edge.reverse).reverse ++ [0]

/-- `totals = dev_prefix[:N+1] + net[:N+1] + edge_suffix[:N+1]` (elementwise). -/
def totalsList (dev edge net : List ℚ) (N : Nat) : List ℚ :=
  List.zipWith (· + ·)
    (List.zipWith (· + ·) ((devPrefixList dev).take (N + 1)) (net.take (N + 1)))
    ((edgeSuffixList edge).take (N + 1))

/-- The `best_components` dictionary returned by `offloading_algo`, together with
`best_k`. -/
structure OffloadResult where
  best_k : Nat
  devPrefixSum : ℚ
  edgeSuffixSum : ℚ
  network_time : ℚ
  deriving Repr, DecidableEq

/-- `offloading_algo(edge_times, device_times, network_times)` from
`simulated_results/simulated_scenario.py`.  `ValueError` / `IndexError` are
modelled by `Except.error`. -/
def offloading_algo (edge_times device_times : List ℚ) (network_times : NetArg) :
    Except String OffloadResult :=
  let N := device_times.length
  if edge_times.length ≠ N then
    .error "edge_times e device_times devono avere la stessa lunghezza"
  else
    match normalizeNet N network_times with
    | .error e => .error e
    | .ok net =>
        let totals := totalsList device_times edge_times net N
        let best_k := argminIdx totals
        .ok { best_k := best_k
              devPrefixSum := (devPrefixList device_times).getD best_k 0
              edgeSuffixSum := (edgeSuffixList edge_times).getD best_k 0
              network_time := net.getD best_k 0 }

/-- `compute_network_times(layers_size, network_speed, network_stability)` from
`simulated_results/simulated_scenario.py`. -/
def compute_network_times (layers_size : List ℚ) (network_speed network_stability : ℚ) :
    List ℚ :=
  layers_size.map (fun layer => layer * 4 / 1024 / (network_speed * network_stability))

/-! Basic lemmas about the prefix/suffix sum vectors. -/

theorem cumsum_length (l : List ℚ) : (cumsum l).length = l.length := by
  induction l with
  | nil => rfl
  | cons x xs ih => simp [cumsum, ih]

theorem cumsum_getD (l : List ℚ) (k : Nat) (hk : k < l.length) :
    (cumsum l).getD k 0 = (l.take (k + 1)).sum := by
  induction l generalizing k with
  | nil => simp at hk
  | cons x xs ih =>
      cases k with
      | zero => simp [cumsum]
      | succ j =>
          have hj : j < xs.length := by simpa using Nat.lt_of_succ_lt_succ hk
          have hj' : j < (cumsum xs).length := by rw [cumsum_length]; exact hj
          calc (cumsum (x :: xs)).getD (j + 1) 0
              = ((cumsum xs).map (fun y => x + y)).getD j 0 := by simp [cumsum]
            _ = x + (cumsum xs).getD j 0 := by
                rw [List.getD_eq_getElem _ _ (by simpa using hj'),
                    List.getD_eq_getElem _ _ hj']
                simp
            _ = x + (xs.take (j + 1)).sum := by rw [ih j hj]
            _ = ((x :: xs).take (j + 1 + 1)).sum := by simp

theorem devPrefixList_length (dev : List ℚ) :
    (devPrefixList dev).length = dev.length + 1 := by
  simp [devPrefixList, cumsum_length]

theorem devPrefixList_getD (dev : List ℚ) (k : Nat) (hk : k ≤ dev.length) :
    (devPrefixList dev).getD k 0 = (dev.take k).sum := by
  cases k with
  | zero => simp [devPrefixList]
  | succ j =>
      have hj : j < dev.length := Nat.lt_of_succ_le hk
      calc (devPrefixList dev).getD (j + 1) 0
          = (cumsum dev).getD j 0 := by simp [devPrefixList]
        _ = (dev.take (j + 1)).sum := cumsum_getD dev j hj

/-- `cumsum` over an append: the second block's partial sums are shifted by the
sum of the first block. -/
theorem cumsum_append (a b : List ℚ) :
    cumsum (a ++ b) = cumsum a ++ (cumsum b).map (fun y => a.sum + y) := by
  induction a with
  | nil => simp [cumsum]
  | cons x xs ih =>
      have h1 : cumsum ((x :: xs) ++ b)
          = x :: (cumsum (xs ++ b)).map (fun y => x + y) := rfl
      have h2 : ((cumsum b).map (fun y => xs.sum + y)).map (fun y => x + y)
          = (cumsum b).map (fun y => (x :: xs).sum + y) := by
        rw [List.map_map]
        apply List.map_congr_left
        intro y _
        simp only [Function.comp_apply, List.sum_cons]
        ring
      rw [h1, ih, List.map_append, h2]
      rfl

/-- The suffix-sum vector in closed recursive form:
`suffixSums l = [sum (drop 0 l), sum (drop 1 l), ..., 0]`. -/
def suffixSums : List ℚ → List ℚ
  | [] => [0]
  | x :: xs => (x + xs.sum) :: suffixSums xs

theorem edgeSuffixList_eq_suffixSums (edge : List ℚ) :
    edgeSuffixList edge = suffixSums edge := by
  induction edge with
  | nil => simp [edgeSuffixList, suffixSums, cumsum]
  | cons x xs ih =>
      show (cumsum (x :: xs).reverse).reverse ++ [0] = suffixSums (x :: xs)
      rw [List.reverse_cons, cumsum_append]
      simp only [cumsum, List.map_nil, List.map_cons, List.reverse_append,
        List.reverse_cons, List.reverse_nil, List.nil_append, List.cons_append,
        List.sum_reverse]
      rw [suffixSums, add_comm x xs.sum]
      exact congrArg (List.cons _) ih

theorem suffixSums_getD (l : List ℚ) (k : Nat) (hk : k ≤ l.length) :
    (suffixSums l).getD k 0 = (l.drop k).sum := by
  induction l generalizing k with
  | nil =>
      have hk0 : k = 0 := by simpa using hk
      subst hk0
      simp [suffixSums]
  | cons x xs ih =>
      cases k with
      | zero => simp [suffixSums]
      | succ j =>
          have hj : j ≤ xs.length := Nat.le_of_succ_le_succ hk
          simpa [suffixSums] using ih j hj

theorem edgeSuffixList_getD (edge : List ℚ) (k : Nat) (hk : k ≤ edge.length) :
    (edgeSuffixList edge).getD k 0 = (edge.drop k).sum := by
  rw [edgeSuffixList_eq_suffixSums]
  exact suffixSums_getD edge k hk

theorem suffixSums_length (l : List ℚ) : (suffixSums l).length = l.length + 1 := by
  induction l with
  | nil => rfl
  | cons x xs ih => simp [suffixSums, ih]

theorem edgeSuffixList_length (edge : List ℚ) :
    (edgeSuffixList edge).length = edge.length + 1 := by
  rw [edgeSuffixList_eq_suffixSums]; exact suffixSums_length edge

theorem listMin_le {l : List ℚ} {x : ℚ} (hx : x ∈ l) : listMin l ≤ x := by
  induction l with
  | nil => simp at hx
  | cons a as ih =>
      cases as with
      | nil =>
          have : x = a := by simpa using hx
          simp [listMin, this]
      | cons b bs =>
          rw [listMin]
          rcases List.mem_cons.mp hx with h | h
          · subst h; exact min_le_left _ _
          · exact le_trans (min_le_right _ _) (ih h)

theorem argminIdx_lt_length (l : List ℚ) (hl : l ≠ []) : argminIdx l < l.length := by
  induction l with
  | nil => exact absurd rfl hl
  | cons a as ih =>
      cases as with
      | nil => simp [argminIdx]
      | cons b bs =>
          rw [argminIdx]
          by_cases h : a ≤ listMin (b :: bs)
          · simp [h]
          · rw [if_neg h]
            have := ih (by simp)
            simpa [Nat.succ_lt_succ_iff] using this

theorem getD_argminIdx (l : List ℚ) (hl : l ≠ []) :
    l.getD (argminIdx l) 0 = listMin l := by
  induction l with
  | nil => exact absurd rfl hl
  | cons a as ih =>
      cases as with
      | nil => simp [argminIdx, listMin]
      | cons b bs =>
          rw [argminIdx, listMin]
          by_cases h : a ≤ listMin (b :: bs)
          · rw [if_pos h]
            simp [min_eq_left h]
          · rw [if_neg h]
            have hle : listMin (b :: bs) ≤ a := le_of_lt (lt_of_not_le h)
            rw [min_eq_right hle]
            simpa using ih (by simp)

theorem listMin_lt_getD_of_lt_argminIdx (l : List ℚ) (j : Nat) (hj : j < argminIdx l) :
    listMin l < l.getD j 0 := by
  induction l generalizing j with
  | nil => simp [argminIdx] at hj
  | cons a as ih =>
      cases as with
      | nil => simp [argminIdx] at hj
      | cons b bs =>
          rw [argminIdx] at hj
          by_cases h : a ≤ listMin (b :: bs)
          · rw [if_pos h] at hj; exact absurd hj (Nat.not_lt_zero j)
          · rw [if_neg h] at hj
            have hlt : listMin (b :: bs) < a := lt_of_not_le h
            rw [listMin, min_eq_right (le_of_lt hlt)]
            cases j with
            | zero => simpa using hlt
            | succ i =>
                have hi : i < argminIdx (b :: bs) := Nat.lt_of_succ_lt_succ hj
                simpa using ih i hi

/-! Pointwise description of the `totals` vector. -/

theorem getD_zipWith_add (a b : List ℚ) (k : Nat) (ha : k < a.length) (hb : k < b.length) :
    (List.zipWith (· + ·) a b).getD k 0 = a.getD k 0 + b.getD k 0 := by
  rw [List.getD_eq_getElem _ _ (by rw [List.length_zipWith]; omega),
      List.getD_eq_getElem _ _ ha, List.getD_eq_getElem _ _ hb,
      List.getElem_zipWith]

theorem totalsList_length (dev edge net : List ℚ) (N : Nat)
    (hdev : dev.length = N) (hedge : edge.length = N) (hnet : net.length = N + 1) :
    (totalsList dev edge net N).length = N + 1 := by
  simp only [totalsList, List.length_zipWith, List.length_take,
    devPrefixList_length, edgeSuffixList_length, hdev, hedge, hnet]
  omega

theorem totalsList_getD (dev edge net : List ℚ) (N k : Nat)
    (hdev : dev.length = N) (hedge : edge.length = N) (hnet : net.length = N + 1)
    (hk : k ≤ N) :
    (totalsList dev edge net N).getD k 0
      = (dev.take k).sum + net.getD k 0 + (edge.drop k).sum := by
  have hdp : (devPrefixList dev).take (N + 1) = devPrefixList dev :=
    List.take_of_length_le (by rw [devPrefixList_length, hdev])
  have hes : (edgeSuffixList edge).take (N + 1) = edgeSuffixList edge :=
    List.take_of_length_le (by rw [edgeSuffixList_length, hedge])
  have hnt : net.take (N + 1) = net := List.take_of_length_le (by rw [hnet])
  rw [totalsList, hdp, hes, hnt]
  rw [getD_zipWith_add _ _ k
        (by rw [List.length_zipWith, devPrefixList_length, hdev, hnet]; omega)
        (by rw [edgeSuffixList_length, hedge]; omega),
      getD_zipWith_add _ _ k
        (by rw [devPrefixList_length, hdev]; omega)
        (by rw [hnet]; omega)]
  rw [devPrefixList_getD dev k (by rw [hdev]; exact hk),
      edgeSuffixList_getD edge k (by rw [hedge]; exact hk)]

/-- **C1**: for device and edge timing vectors of equal length `N` and a net
vector of length `N + 1`, `offloading_algo` succeeds and returns a split index
`best_k ≤ N` minimising `total k = Σ_{i<k} dev[i] + net[k] + Σ_{j≥k} edge[j]`
over `k = 0..N`, with ties resolved to the lowest `k`. -/
theorem offloading_algo_optimal
    (edge_times device_times net : List ℚ) (N : Nat)
    (hdev : device_times.length = N) (hedge : edge_times.length = N)
    (hnet : net.length = N + 1) :
    ∃ r : OffloadResult,
      offloading_algo edge_times device_times (NetArg.vec net) = .ok r ∧
      r.best_k ≤ N ∧
      (∀ k, k ≤ N →
        (device_times.take r.best_k).sum + net.getD r.best_k 0
            + (edge_times.drop r.best_k).sum
          ≤ (device_times.take k).sum + net.getD k 0 + (edge_times.drop k).sum) ∧
      (∀ k, k < r.best_k →
        (device_times.take r.best_k).sum + net.getD r.best_k 0
            + (edge_times.drop r.best_k).sum
          < (device_times.take k).sum + net.getD k 0 + (edge_times.drop k).sum) := by
  subst hdev
  have hnorm : normalizeNet device_times.length (NetArg.vec net) = .ok net := by
    simp [normalizeNet, hnet]
  have halgo : offloading_algo edge_times device_times (NetArg.vec net)
      = .ok { best_k := argminIdx (totalsList device_times edge_times net device_times.length)
              devPrefixSum := (devPrefixList device_times).getD
                (argminIdx (totalsList device_times edge_times net device_times.length)) 0
              edgeSuffixSum := (edgeSuffixList edge_times).getD
                (argminIdx (totalsList device_times edge_times net device_times.length)) 0
              network_time := net.getD
                (argminIdx (totalsList device_times edge_times net device_times.length)) 0 } := by
    rw [offloading_algo]
    rw [if_neg (not_not_intro hedge)]
    rw [hnorm]
  set totals := totalsList device_times edge_times net device_times.length with htotals
  have hlen : totals.length = device_times.length + 1 :=
    totalsList_length _ _ _ _ rfl hedge hnet
  have hne : totals ≠ [] := by
    intro h
    rw [h] at hlen
    simp at hlen
  have hbk : argminIdx totals < totals.length := argminIdx_lt_length totals hne
  have hbkN : argminIdx totals ≤ device_times.length := by omega
  have hgetD : ∀ k, k ≤ device_times.length → totals.getD k 0
      = (device_times.take k).sum + net.getD k 0 + (edge_times.drop k).sum :=
    fun k hk => totalsList_getD _ _ _ _ k rfl hedge hnet hk
  have hmin : totals.getD (argminIdx totals) 0 = listMin totals := getD_argminIdx totals hne
  refine ⟨_, halgo, hbkN, ?_, ?_⟩
  · intro k hk
    rw [← hgetD _ hbkN, ← hgetD _ hk, hmin]
    have hmem : totals.getD k 0 ∈ totals := by
      rw [List.getD_eq_getElem _ _ (by omega)]
      exact List.getElem_mem _
    exact listMin_le hmem
  · intro k hk
    rw [← hgetD _ hbkN, ← hgetD _ (le_trans (le_of_lt hk) hbkN), hmin]
    exact listMin_lt_getD_of_lt_argminIdx totals k hk

/-- Witness for C1 at `edge = [2]`, `dev = [1]`, `net = [0, 0]` (`N = 1`). -/
theorem offloading_algo_optimal_witness :
    ∃ r : OffloadResult,
      offloading_algo [(2 : ℚ)] [(1 : ℚ)] (NetArg.vec [0, 0]) = .ok r ∧
      r.best_k ≤ 1 ∧
      (∀ k, k ≤ 1 →
        ([(1 : ℚ)].take r.best_k).sum + ([(0 : ℚ), 0]).getD r.best_k 0
            + ([(2 : ℚ)].drop r.best_k).sum
          ≤ ([(1 : ℚ)].take k).sum + ([(0 : ℚ), 0]).getD k 0 + ([(2 : ℚ)].drop k).sum) ∧
      (∀ k, k < r.best_k →
        ([(1 : ℚ)].take r.best_k).sum + ([(0 : ℚ), 0]).getD r.best_k 0
            + ([(2 : ℚ)].drop r.best_k).sum
          < ([(1 : ℚ)].take k).sum + ([(0 : ℚ), 0]).getD k 0 + ([(2 : ℚ)].drop k).sum) :=
  offloading_algo_optimal [2] [1] [0, 0] 1 rfl rfl rfl

/-- **C2**: the optimiser accepts `net` of length `1`, `N`, or `N + 1`
(scalar and length-1 nets are broadcast to `N + 1` entries, a length-`N` net is
extended by duplicating its last entry, a length-`N + 1` net is used as-is);
any other net length, or mismatched device/edge vectors, produce an error; and
a scalar link speed `v` (here `network_speed * network_stability`) turns layer
sizes into network times by `net[i] = S[i] * 4 / 1024 / v`. -/
theorem offloading_algo_net_normalisation (N : Nat) (hN : 1 ≤ N) :
    (∀ x : ℚ, normalizeNet N (NetArg.scalar x) = .ok (List.replicate (N + 1) x)) ∧
    (∀ net : List ℚ, net.length = 1 →
        normalizeNet N (NetArg.vec net) = .ok (List.replicate (N + 1) (net.headD 0))) ∧
    (∀ net : List ℚ, net.length = N →
        normalizeNet N (NetArg.vec net) = .ok (net ++ [net.getLastD 0])) ∧
    (∀ net : List ℚ, net.length = N + 1 → normalizeNet N (NetArg.vec net) = .ok net) ∧
    (∀ net : List ℚ, net.length ≠ 1 → net.length ≠ N → net.length ≠ N + 1 →
        ∃ e, normalizeNet N (NetArg.vec net) = .error e) ∧
    (∀ (edge_times device_times : List ℚ) (na : NetArg),
        edge_times.length ≠ device_times.length →
        ∃ e, offloading_algo edge_times device_times na = .error e) ∧
    (∀ (layers_size : List ℚ) (network_speed network_stability : ℚ),
        compute_network_times layers_size network_speed network_stability
          = layers_size.map
              (fun s => s * 4 / 1024 / (network_speed * network_stability))) := by
  refine ⟨fun x => rfl, ?_, ?_, ?_, ?_, ?_, fun S v st => rfl⟩
  · intro net hlen
    obtain ⟨a, rfl⟩ := List.length_eq_one.mp hlen
    by_cases hN1 : N = 1
    · subst hN1
      rw [normalizeNet]
      norm_num
      rfl
    · have h1 : (1 : Nat) ≠ N + 1 := by omega
      have h2 : (1 : Nat) ≠ N := by omega
      rw [normalizeNet]
      simp [h1, h2]
  · intro net hlen
    have h1 : net.length ≠ N + 1 := by omega
    have hne : net ≠ [] := by
      intro h
      rw [h] at hlen
      simp at hlen
      omega
    rw [normalizeNet, if_neg h1, if_pos hlen]
    have : net.getLast? = some (net.getLastD 0) := by
      rw [List.getLastD_eq_getLast?]
      cases h : net.getLast? with
      | none => exact absurd (List.getLast?_eq_none_iff.mp h) hne
      | some v => rfl
    rw [this]
  · intro net hlen
    rw [normalizeNet, if_pos hlen]
  · intro net h1 hn hn1
    rw [normalizeNet, if_neg hn1, if_neg hn, if_neg h1]
    exact ⟨_, rfl⟩
  · intro edge dev na h
    rw [offloading_algo, if_pos h]
    exact ⟨_, rfl⟩

/-- Witness for C2 at `N = 1`. -/
theorem offloading_algo_net_normalisation_witness :
    (∀ x : ℚ, normalizeNet 1 (NetArg.scalar x) = .ok (List.replicate 2 x)) ∧
    (∀ net : List ℚ, net.length = 1 →
        normalizeNet 1 (NetArg.vec net) = .ok (List.replicate 2 (net.headD 0))) ∧
    (∀ net : List ℚ, net.length = 1 →
        normalizeNet 1 (NetArg.vec net) = .ok (net ++ [net.getLastD 0])) ∧
    (∀ net : List ℚ, net.length = 2 → normalizeNet 1 (NetArg.vec net) = .ok net) ∧
    (∀ net : List ℚ, net.length ≠ 1 → net.length ≠ 1 → net.length ≠ 2 →
        ∃ e, normalizeNet 1 (NetArg.vec net) = .error e) ∧
    (∀ (edge_times device_times : List ℚ) (na : NetArg),
        edge_times.length ≠ device_times.length →
        ∃ e, offloading_algo edge_times device_times na = .error e) ∧
    (∀ (layers_size : List ℚ) (network_speed network_stability : ℚ),
        compute_network_times layers_size network_speed network_stability
          = layers_size.map
              (fun s => s * 4 / 1024 / (network_speed * network_stability))) :=
  offloading_algo_net_normalisation 1 (Nat.le_refl 1)

/-! ## Per-layer timing store (EWMA updates)

`RequestHandler.handle_device_inference_result` keeps device times in a JSON
dict keyed by `layer_<i>`; `track_inference_time` in `models/model_manager.py`
keeps edge times in a dict keyed by `str(layer_id)`.  Both are modelled as
`Nat → Option ℚ` (layer index to stored value, `none` when the key is absent).
-/

/-- `alpha = 0.2`, the EWMA weight given to a new measurement (both sides). -/
def alpha : ℚ := 2 / 10

/-- The device-side update in `handle_device_inference_result` (lines 115-123):
`store[layer_i] = alpha * x + (1 - alpha) * store[layer_i]` when the key
exists, else `store[layer_i] = x`. -/
def update_device_time (store : Nat → Option ℚ) (l_id : Nat) (inference_time : ℚ) :
    Nat → Option ℚ :=
  fun j =>
    if j = l_id then
      some (match store l_id with
        | some old => alpha * inference_time + (1 - alpha) * old
        | none => inference_time)
    else store j

/-- The edge-side update in `track_inference_time` (`model_manager.py`
lines 30-39), with the identical EWMA rule. -/
def update_edge_time (store : Nat → Option ℚ) (layer_key : Nat) (elapsed_time : ℚ) :
    Nat → Option ℚ :=
  fun j =>
    if j = layer_key then
      some (match store layer_key with
        | some old => alpha * elapsed_time + (1 - alpha) * old
        | none => elapsed_time)
    else store j

/-- **C3**: on both the device and the edge side, an accepted raw measurement
`x` of layer `i` replaces the stored value by `0.2 * x + 0.8 * old` when an
entry exists, seeds it with `x` when none exists, and leaves every other
layer's entry unchanged. -/
theorem ewma_update_spec (store : Nat → Option ℚ) (i : Nat) (x : ℚ) :
    (∀ old, store i = some old →
        update_device_time store i x i = some (2 / 10 * x + 8 / 10 * old) ∧
        update_edge_time store i x i = some (2 / 10 * x + 8 / 10 * old)) ∧
    (store i = none →
        update_device_time store i x i = some x ∧
        update_edge_time store i x i = some x) ∧
    (∀ j, j ≠ i →
        update_device_time store i x j = store j ∧
        update_edge_time store i x j = store j) := by
  refine ⟨?_, ?_, ?_⟩
  · intro old hold
    constructor <;>
      · simp only [update_device_time, update_edge_time, if_pos rfl, hold]
        norm_num [alpha]
  · intro hnone
    constructor <;> simp [update_device_time, update_edge_time, hnone]
  · intro j hj
    constructor <;> simp [update_device_time, update_edge_time, hj]

/-- Witness for C3: a store holding only layer 0 (value 1), updated at layer 0
with measurement 2. -/
theorem ewma_update_spec_witness :
    (∀ old, (fun j => if j = 0 then some (1 : ℚ) else none) 0 = some old →
        update_device_time (fun j => if j = 0 then some (1 : ℚ) else none) 0 2 0
            = some (2 / 10 * 2 + 8 / 10 * old) ∧
        update_edge_time (fun j => if j = 0 then some (1 : ℚ) else none) 0 2 0
            = some (2 / 10 * 2 + 8 / 10 * old)) ∧
    ((fun j => if j = 0 then some (1 : ℚ) else none) 0 = none →
        update_device_time (fun j => if j = 0 then some (1 : ℚ) else none) 0 2 0 = some 2 ∧
        update_edge_time (fun j => if j = 0 then some (1 : ℚ) else none) 0 2 0 = some 2) ∧
    (∀ j, j ≠ 0 →
        update_device_time (fun j => if j = 0 then some (1 : ℚ) else none) 0 2 j
            = (fun j => if j = 0 then some (1 : ℚ) else none) j ∧
        update_edge_time (fun j => if j = 0 then some (1 : ℚ) else none) 0 2 j
            = (fun j => if j = 0 then some (1 : ℚ) else none) j) :=
  ewma_update_spec (fun j => if j = 0 then some (1 : ℚ) else none) 0 2

/-! ## Variance detector (`src/server/variance_detector.py`) -/

/-- Mean of the window, `statistics.mean`. -/
def listMean (l : List ℚ) : ℚ := l.sum / l.length

/-- Sample variance of the window (`statistics.stdev` squared):
`Σ (x - mean)² / (n - 1)`. -/
def sampleVariance (l : List ℚ) : ℚ :=
  (l.map (fun x => (x - listMean l) ^ 2)).sum / ((l.length : ℚ) - 1)

/-- Append to a `deque(maxlen=window_size)`: when the window is full the
oldest (leftmost) sample is discarded. -/
def dequeAppend (window_size : Nat) (ms : List ℚ) (x : ℚ) : List ℚ :=
  let ms2 := ms ++ [x]
  if window_size < ms2.length then ms2.tail else ms2

/-- Per-layer measurement history (`InferenceTimeHistory`). -/
structure InferenceTimeHistory where
  layer_id : Nat
  window_size : Nat
  variance_threshold : ℚ
  measurements : List ℚ

/-- `InferenceTimeHistory._has_significant_variance`.  The source compares
`cv = stdev / mean` (taken as `0` when `mean ≤ 0`) against the threshold;
since `stdev = √variance ≥ 0`, for `mean > 0` the comparison
`stdev / mean > θ` is equivalent to `variance > θ² · mean²`, which is how it
is decided here, avoiding square roots over `ℚ` (see
`add_measurement_flags_iff_cv` for the equivalence with the √ form). -/
def has_significant_variance (h : InferenceTimeHistory) : Bool :=
  if h.measurements.length < 3 then false
  else if 0 < listMean h.measurements then
    decide (h.variance_threshold ^ 2 * (listMean h.measurements) ^ 2
      < sampleVariance h.measurements)
  else false

/-- `InferenceTimeHistory.add_measurement`: push the sample into the window,
return `false` with fewer than 3 samples, else the significance check. -/
def add_measurement (h : InferenceTimeHistory) (t : ℚ) : InferenceTimeHistory × Bool :=
  let h' := { h with measurements := dequeAppend h.window_size h.measurements t }
  if h'.measurements.length < 3 then (h', false)
  else (h', has_significant_variance h')

/-- `VarianceDetector` state. -/
structure VarianceDetector where
  window_size : Nat
  variance_threshold : ℚ
  device_histories : Nat → Option InferenceTimeHistory
  edge_histories : Nat → Option InferenceTimeHistory
  device_needs_retest : Bool
  edge_needs_retest : Bool
  device_variance_layers : Finset Nat
  edge_variance_layers : Finset Nat

/-- `VarianceDetector.__init__(window_size=10, variance_threshold=0.15)`. -/
def VarianceDetector.init (window_size : Nat) (variance_threshold : ℚ) : VarianceDetector :=
  { window_size := window_size
    variance_threshold := variance_threshold
    device_histories := fun _ => none
    edge_histories := fun _ => none
    device_needs_retest := false
    edge_needs_retest := false
    device_variance_layers := ∅
    edge_variance_layers := ∅ }

/-- `VarianceDetector.add_device_measurement` (lines 140-170). -/
def add_device_measurement (d : VarianceDetector) (layer_id : Nat) (t : ℚ) :
    Bool × VarianceDetector :=
  let hist := match d.device_histories layer_id with
    | some h => h
    | none => { layer_id := layer_id, window_size := d.window_size,
                variance_threshold := d.variance_threshold, measurements := [] }
  let r := add_measurement hist t
  let d' := { d with device_histories :=
                fun j => if j = layer_id then some r.1 else d.device_histories j }
  if r.2 then
    (true, { d' with device_needs_retest := true,
                     device_variance_layers := insert layer_id d'.device_variance_layers })
  else (false, d')

/-- `VarianceDetector.add_edge_measurement` (lines 172-202). -/
def add_edge_measurement (d : VarianceDetector) (layer_id : Nat) (t : ℚ) :
    Bool × VarianceDetector :=
  let hist := match d.edge_histories layer_id with
    | some h => h
    | none => { layer_id := layer_id, window_size := d.window_size,
                variance_threshold := d.variance_threshold, measurements := [] }
  let r := add_measurement hist t
  let d' := { d with edge_histories :=
                fun j => if j = layer_id then some r.1 else d.edge_histories j }
  if r.2 then
    (true, { d' with edge_needs_retest := true,
                     edge_variance_layers := insert layer_id d'.edge_variance_layers })
  else (false, d')

/-- Result of `get_layers_needing_retest` (the source returns the two sets
sorted; only their membership matters and is modelled). -/
structure RetestLayers where
  device : Finset Nat
  edge : Finset Nat

/-- `VarianceDetector.get_layers_needing_retest` (lines 204-227): the
directly-flagged layers plus, for each flagged layer `i`, the successor
`i + 1`. -/
def get_layers_needing_retest (d : VarianceDetector) : RetestLayers :=
  { device := d.device_variance_layers ∪ d.device_variance_layers.image (· + 1)
    edge := d.edge_variance_layers ∪ d.edge_variance_layers.image (· + 1) }

/-- `VarianceDetector.should_retest_offloading` (lines 229-249): report
whether either side has a pending flag and clear both flags on read. -/
def should_retest_offloading (d : VarianceDetector) : Bool × VarianceDetector :=
  let needs_retest := d.device_needs_retest || d.edge_needs_retest
  if needs_retest then
    (needs_retest, { d with device_needs_retest := false, edge_needs_retest := false })
  else (needs_retest, d)

theorem sampleVariance_nonneg (l : List ℚ) (hl : 2 ≤ l.length) : 0 ≤ sampleVariance l := by
  apply div_nonneg
  · apply List.sum_nonneg
    intro x hx
    obtain ⟨y, _, rfl⟩ := List.mem_map.mp hx
    positivity
  · have h2 : (2 : ℚ) ≤ (l.length : ℚ) := by exact_mod_cast hl
    linarith

/-- For a positive mean, comparing the squared quantities is the same as
comparing `√variance / mean` with the threshold. -/
theorem cv_sq_iff (θ μ v : ℚ) (hθ : 0 ≤ θ) (hμ : 0 < μ) :
    θ ^ 2 * μ ^ 2 < v ↔ (θ : ℝ) < Real.sqrt (v : ℝ) / (μ : ℝ) := by
  have hμR : (0 : ℝ) < (μ : ℝ) := by exact_mod_cast hμ
  have hθR : (0 : ℝ) ≤ (θ : ℝ) := by exact_mod_cast hθ
  rw [lt_div_iff₀ hμR, Real.lt_sqrt (by positivity), mul_pow]
  constructor
  · intro hlt; exact_mod_cast hlt
  · intro hlt; exact_mod_cast hlt

/-- `add_measurement` in explicit form (both branches agree because the
significance check itself returns `false` on windows shorter than 3). -/
theorem add_measurement_eq (h : InferenceTimeHistory) (t : ℚ) :
    add_measurement h t
      = ({ h with measurements := dequeAppend h.window_size h.measurements t },
         has_significant_variance
           { h with measurements := dequeAppend h.window_size h.measurements t }) := by
  rw [add_measurement]
  split
  · rename_i hlt
    rw [has_significant_variance, if_pos hlt]
  · rfl

/-- **C4**: a push flags a layer iff the window then holds at least 3 samples
and its coefficient of variation `√variance / mean` exceeds the `0.15`
threshold (the ratio taken as 0 when the mean is not positive); with fewer
than 3 samples a push never flags; and whenever a push flags layer `i`, the
set of layers needing retest on that side contains both `i` and `i + 1`. -/
theorem variance_flagging_spec :
    (∀ (h : InferenceTimeHistory) (t : ℚ), h.variance_threshold = 15 / 100 →
      ((add_measurement h t).2 = true ↔
        3 ≤ (dequeAppend h.window_size h.measurements t).length ∧
        0 < listMean (dequeAppend h.window_size h.measurements t) ∧
        (15 / 100 : ℝ)
          < Real.sqrt (sampleVariance (dequeAppend h.window_size h.measurements t))
              / (listMean (dequeAppend h.window_size h.measurements t) : ℝ))) ∧
    (∀ (h : InferenceTimeHistory) (t : ℚ),
      (dequeAppend h.window_size h.measurements t).length < 3 →
      (add_measurement h t).2 = false) ∧
    (∀ (d : VarianceDetector) (i : Nat) (t : ℚ),
      (add_device_measurement d i t).1 = true →
        i ∈ (get_layers_needing_retest (add_device_measurement d i t).2).device ∧
        i + 1 ∈ (get_layers_needing_retest (add_device_measurement d i t).2).device) ∧
    (∀ (d : VarianceDetector) (i : Nat) (t : ℚ),
      (add_edge_measurement d i t).1 = true →
        i ∈ (get_layers_needing_retest (add_edge_measurement d i t).2).edge ∧
        i + 1 ∈ (get_layers_needing_retest (add_edge_measurement d i t).2).edge) := by
  refine ⟨?_, ?_, ?_, ?_⟩
  · intro h t hθ
    rw [add_measurement_eq]
    simp only [has_significant_variance, hθ]
    set ms := dequeAppend h.window_size h.measurements t with hms
    by_cases hlen : ms.length < 3
    · rw [if_pos hlen]
      constructor
      · intro hfalse; simp at hfalse
      · rintro ⟨h3, -, -⟩; omega
    · rw [if_neg hlen]
      have h3 : 3 ≤ ms.length := by omega
      by_cases hμ : 0 < listMean ms
      · rw [if_pos hμ]
        rw [decide_eq_true_eq]
        have hC := cv_sq_iff (15 / 100) (listMean ms) (sampleVariance ms) (by norm_num) hμ
        have hcast : (((15 : ℚ) / 100 : ℚ) : ℝ) = (15 / 100 : ℝ) := by norm_num
        rw [hC, hcast]
        constructor
        · intro hcv; exact ⟨h3, hμ, hcv⟩
        · rintro ⟨-, -, hcv⟩; exact hcv
      · rw [if_neg hμ]
        constructor
        · intro hfalse; simp at hfalse
        · rintro ⟨-, hμ', -⟩; exact absurd hμ' hμ
  · intro h t hlen
    rw [add_measurement_eq]
    simp only [has_significant_variance]
    rw [if_pos hlen]
  · intro d i t hflag
    simp only [add_device_measurement] at hflag ⊢
    split at hflag
    · rename_i hcond
      rw [if_pos hcond]
      simp [get_layers_needing_retest, Finset.mem_union, Finset.mem_insert,
        Finset.mem_image]
    · simp at hflag
  · intro d i t hflag
    simp only [add_edge_measurement] at hflag ⊢
    split at hflag
    · rename_i hcond
      rw [if_pos hcond]
      simp [get_layers_needing_retest, Finset.mem_union, Finset.mem_insert,
        Finset.mem_image]
    · simp at hflag

/-- Detector used by the C4 witness: default settings, with window `[1, 1]`
already recorded for layer 5 on both sides. -/
def witnessDetector : VarianceDetector :=
  { VarianceDetector.init 10 (15 / 100) with
      device_histories := fun j =>
        if j = 5 then some ⟨5, 10, 15 / 100, [1, 1]⟩ else none
      edge_histories := fun j =>
        if j = 5 then some ⟨5, 10, 15 / 100, [1, 1]⟩ else none }

/-- Witness for C4: pushing `10` onto the window `[1, 1]` flags the layer
(CV of `[1, 1, 10]` is well over 15%); a push onto an empty window does not;
the flagged layer 5 puts `{5, 6}` into the retest set on each side. -/
theorem variance_flagging_spec_witness :
    (3 ≤ (dequeAppend 10 [(1 : ℚ), 1] 10).length ∧
      0 < listMean (dequeAppend 10 [(1 : ℚ), 1] 10) ∧
      (15 / 100 : ℝ)
        < Real.sqrt (sampleVariance (dequeAppend 10 [(1 : ℚ), 1] 10))
            / (listMean (dequeAppend 10 [(1 : ℚ), 1] 10) : ℝ)) ∧
    (add_measurement ⟨0, 10, 15 / 100, []⟩ 1).2 = false ∧
    (5 ∈ (get_layers_needing_retest (add_device_measurement witnessDetector 5 10).2).device ∧
      6 ∈ (get_layers_needing_retest (add_device_measurement witnessDetector 5 10).2).device) ∧
    (5 ∈ (get_layers_needing_retest (add_edge_measurement witnessDetector 5 10).2).edge ∧
      6 ∈ (get_layers_needing_retest (add_edge_measurement witnessDetector 5 10).2).edge) :=
  ⟨(variance_flagging_spec.1 ⟨0, 10, 15 / 100, [1, 1]⟩ 10 rfl).mp (by
      rw [add_measurement_eq]
      norm_num [has_significant_variance, sampleVariance, listMean, dequeAppend]),
   variance_flagging_spec.2.1 ⟨0, 10, 15 / 100, []⟩ 1 (by norm_num [dequeAppend]),
   variance_flagging_spec.2.2.1 witnessDetector 5 10 (by
      have h2 : (add_measurement ⟨5, 10, 15 / 100, [1, 1]⟩ 10).2 = true := by
        rw [add_measurement_eq]
        norm_num [has_significant_variance, sampleVariance, listMean, dequeAppend]
      simp [add_device_measurement, witnessDetector, VarianceDetector.init, h2]),
   variance_flagging_spec.2.2.2 witnessDetector 5 10 (by
      have h2 : (add_measurement ⟨5, 10, 15 / 100, [1, 1]⟩ 10).2 = true := by
        rw [add_measurement_eq]
        norm_num [has_significant_variance, sampleVariance, listMean, dequeAppend]
      simp [add_edge_measurement, witnessDetector, VarianceDetector.init, h2])⟩

/-! ## Traces of detector operations -/

/-- One raw measurement event fed to the detector:
side (`onEdge`), layer and raw time. -/
structure Meas where
  onEdge : Bool
  layer_id : Nat
  t : ℚ

/-- State change of one measurement. -/
def applyMeas (d : VarianceDetector) (m : Meas) : VarianceDetector :=
  if m.onEdge then (add_edge_measurement d m.layer_id m.t).2
  else (add_device_measurement d m.layer_id m.t).2

/-- Replay a list of measurements. -/
def runMeas (d : VarianceDetector) (ops : List Meas) : VarianceDetector :=
  ops.foldl applyMeas d

/-- Whether some measurement of the trace is flagged when replayed from `d`. -/
def anyFlagged (d : VarianceDetector) : List Meas → Bool
  | [] => false
  | m :: ops =>
      (if m.onEdge then (add_edge_measurement d m.layer_id m.t).1
       else (add_device_measurement d m.layer_id m.t).1) || anyFlagged (applyMeas d m) ops

theorem add_device_measurement_flags (d : VarianceDetector) (i : Nat) (t : ℚ) :
    (add_device_measurement d i t).2.device_needs_retest
        = (d.device_needs_retest || (add_device_measurement d i t).1) ∧
    (add_device_measurement d i t).2.edge_needs_retest = d.edge_needs_retest := by
  simp only [add_device_measurement]
  split
  · simp
  · simp

theorem add_edge_measurement_flags (d : VarianceDetector) (i : Nat) (t : ℚ) :
    (add_edge_measurement d i t).2.edge_needs_retest
        = (d.edge_needs_retest || (add_edge_measurement d i t).1) ∧
    (add_edge_measurement d i t).2.device_needs_retest = d.device_needs_retest := by
  simp only [add_edge_measurement]
  split
  · simp
  · simp

theorem applyMeas_flags (d : VarianceDetector) (m : Meas) :
    ((applyMeas d m).device_needs_retest || (applyMeas d m).edge_needs_retest)
      = ((d.device_needs_retest || d.edge_needs_retest) ||
         (if m.onEdge then (add_edge_measurement d m.layer_id m.t).1
          else (add_device_measurement d m.layer_id m.t).1)) := by
  rw [applyMeas]
  by_cases he : m.onEdge
  · rw [if_pos he, if_pos he,
      (add_edge_measurement_flags d m.layer_id m.t).1,
      (add_edge_measurement_flags d m.layer_id m.t).2]
    cases d.device_needs_retest <;> cases d.edge_needs_retest <;>
      cases (add_edge_measurement d m.layer_id m.t).1 <;> rfl
  · rw [if_neg he, if_neg he,
      (add_device_measurement_flags d m.layer_id m.t).1,
      (add_device_measurement_flags d m.layer_id m.t).2]
    cases d.device_needs_retest <;> cases d.edge_needs_retest <;>
      cases (add_device_measurement d m.layer_id m.t).1 <;> rfl

theorem runMeas_retest_flags (d : VarianceDetector) (ops : List Meas) :
    ((runMeas d ops).device_needs_retest || (runMeas d ops).edge_needs_retest)
      = ((d.device_needs_retest || d.edge_needs_retest) || anyFlagged d ops) := by
  induction ops generalizing d with
  | nil => simp [runMeas, anyFlagged]
  | cons m ops ih =>
      have hstep : runMeas d (m :: ops) = runMeas (applyMeas d m) ops := rfl
      rw [hstep, ih (applyMeas d m), applyMeas_flags, anyFlagged]
      cases d.device_needs_retest <;> cases d.edge_needs_retest <;>
        cases (if m.onEdge then (add_edge_measurement d m.layer_id m.t).1
          else (add_device_measurement d m.layer_id m.t).1) <;> simp

/-- **C5**: `should_retest_offloading` reports exactly the pending
(new-since-last-readout) flag, clears it on read, and hence of two
consecutive readouts with no flagging measurement in between the second one
returns `false`. -/
theorem should_retest_edge_triggered :
    (∀ d : VarianceDetector,
      (should_retest_offloading d).1
        = (d.device_needs_retest || d.edge_needs_retest)) ∧
    (∀ d : VarianceDetector,
      (should_retest_offloading d).2.device_needs_retest = false ∧
      (should_retest_offloading d).2.edge_needs_retest = false) ∧
    (∀ (d : VarianceDetector) (ops : List Meas),
      d.device_needs_retest = false → d.edge_needs_retest = false →
      (should_retest_offloading (runMeas d ops)).1 = anyFlagged d ops) ∧
    (∀ (d : VarianceDetector) (ops : List Meas),
      anyFlagged (should_retest_offloading d).2 ops = false →
      (should_retest_offloading
        (runMeas (should_retest_offloading d).2 ops)).1 = false) := by
  have hfst : ∀ d : VarianceDetector,
      (should_retest_offloading d).1 = (d.device_needs_retest || d.edge_needs_retest) := by
    intro d
    rw [should_retest_offloading]
    split <;> rfl
  have hclear : ∀ d : VarianceDetector,
      (should_retest_offloading d).2.device_needs_retest = false ∧
      (should_retest_offloading d).2.edge_needs_retest = false := by
    intro d
    rw [should_retest_offloading]
    cases hd : d.device_needs_retest <;> cases he : d.edge_needs_retest <;>
      simp [hd, he]
  refine ⟨hfst, hclear, ?_, ?_⟩
  · intro d ops hdev hedge
    rw [hfst, runMeas_retest_flags, hdev, hedge]
    simp
  · intro d ops hflag
    rw [hfst, runMeas_retest_flags, (hclear d).1, (hclear d).2, hflag]
    rfl

/-- Witness for C5 at the freshly initialised detector and the empty trace. -/
theorem should_retest_edge_triggered_witness :
    (should_retest_offloading (VarianceDetector.init 10 (15 / 100))).1
        = ((VarianceDetector.init 10 (15 / 100)).device_needs_retest
            || (VarianceDetector.init 10 (15 / 100)).edge_needs_retest) ∧
    ((should_retest_offloading
        (VarianceDetector.init 10 (15 / 100))).2.device_needs_retest = false ∧
      (should_retest_offloading
        (VarianceDetector.init 10 (15 / 100))).2.edge_needs_retest = false) ∧
    (should_retest_offloading
        (runMeas (VarianceDetector.init 10 (15 / 100)) [])).1
      = anyFlagged (VarianceDetector.init 10 (15 / 100)) [] ∧
    (should_retest_offloading
        (runMeas (should_retest_offloading (VarianceDetector.init 10 (15 / 100))).2 [])).1
      = false :=
  ⟨should_retest_edge_triggered.1 (VarianceDetector.init 10 (15 / 100)),
   should_retest_edge_triggered.2.1 (VarianceDetector.init 10 (15 / 100)),
   should_retest_edge_triggered.2.2.1 (VarianceDetector.init 10 (15 / 100)) [] rfl rfl,
   should_retest_edge_triggered.2.2.2 (VarianceDetector.init 10 (15 / 100)) [] rfl⟩

/-- Any state-changing operation of the variance detector: a device or edge
measurement, or a `should_retest_offloading` readout
(`get_layers_needing_retest`, `get_layer_stability` and `get_all_stats` read
the state without changing it). -/
inductive DetOp where
  | deviceMeas (layer_id : Nat) (t : ℚ)
  | edgeMeas (layer_id : Nat) (t : ℚ)
  | readout

/-- State change of one detector operation. -/
def applyOp (d : VarianceDetector) : DetOp → VarianceDetector
  | .deviceMeas i t => (add_device_measurement d i t).2
  | .edgeMeas i t => (add_edge_measurement d i t).2
  | .readout => (should_retest_offloading d).2

/-- Replay a list of detector operations. -/
def runOps (d : VarianceDetector) (ops : List DetOp) : VarianceDetector :=
  ops.foldl applyOp d

theorem applyOp_variance_layers_mono (d : VarianceDetector) (op : DetOp) :
    d.device_variance_layers ⊆ (applyOp d op).device_variance_layers ∧
    d.edge_variance_layers ⊆ (applyOp d op).edge_variance_layers := by
  cases op with
  | deviceMeas i t =>
      simp only [applyOp, add_device_measurement]
      split
      · exact ⟨Finset.subset_insert _ _, Finset.Subset.refl _⟩
      · exact ⟨Finset.Subset.refl _, Finset.Subset.refl _⟩
  | edgeMeas i t =>
      simp only [applyOp, add_edge_measurement]
      split
      · exact ⟨Finset.Subset.refl _, Finset.subset_insert _ _⟩
      · exact ⟨Finset.Subset.refl _, Finset.Subset.refl _⟩
  | readout =>
      simp only [applyOp, should_retest_offloading]
      split
      · exact ⟨Finset.Subset.refl _, Finset.Subset.refl _⟩
      · exact ⟨Finset.Subset.refl _, Finset.Subset.refl _⟩

theorem runOps_variance_layers_mono (d : VarianceDetector) (ops : List DetOp) :
    d.device_variance_layers ⊆ (runOps d ops).device_variance_layers ∧
    d.edge_variance_layers ⊆ (runOps d ops).edge_variance_layers := by
  induction ops generalizing d with
  | nil => exact ⟨Finset.Subset.refl _, Finset.Subset.refl _⟩
  | cons op ops ih =>
      have hstep : runOps d (op :: ops) = runOps (applyOp d op) ops := rfl
      rw [hstep]
      exact ⟨(applyOp_variance_layers_mono d op).1.trans (ih (applyOp d op)).1,
             (applyOp_variance_layers_mono d op).2.trans (ih (applyOp d op)).2⟩

/-- **C10**: the per-side sets of variance-flagged layers only ever grow: no
detector operation removes a layer from `device_variance_layers` or
`edge_variance_layers`, and consequently the per-side sets of layers needing
retest never shrink along any trace of measurements and readouts. -/
theorem variance_sets_monotone :
    (∀ (d : VarianceDetector) (op : DetOp),
      d.device_variance_layers ⊆ (applyOp d op).device_variance_layers ∧
      d.edge_variance_layers ⊆ (applyOp d op).edge_variance_layers) ∧
    (∀ (d : VarianceDetector) (ops : List DetOp),
      d.device_variance_layers ⊆ (runOps d ops).device_variance_layers ∧
      d.edge_variance_layers ⊆ (runOps d ops).edge_variance_layers) ∧
    (∀ (d : VarianceDetector) (ops : List DetOp),
      (get_layers_needing_retest d).device
          ⊆ (get_layers_needing_retest (runOps d ops)).device ∧
      (get_layers_needing_retest d).edge
          ⊆ (get_layers_needing_retest (runOps d ops)).edge) := by
  refine ⟨applyOp_variance_layers_mono, runOps_variance_layers_mono, ?_⟩
  intro d ops
  constructor
  · exact Finset.union_subset_union (runOps_variance_layers_mono d ops).1
      (Finset.image_subset_image (runOps_variance_layers_mono d ops).1)
  · exact Finset.union_subset_union (runOps_variance_layers_mono d ops).2
      (Finset.image_subset_image (runOps_variance_layers_mono d ops).2)

/-! ## Link-speed estimation (`communication/message_data.py`) -/

/-- `MessageData.get_latency`: difference of the two NTP timestamps. -/
def get_latency (timestamp received_timestamp : ℚ) : ℚ :=
  received_timestamp - timestamp

/-- `MessageData.get_synthetic_latency`: constant `1`. -/
def get_synthetic_latency : ℚ := 1

/-- `MessageData.get_avg_speed`: `payload_size / (latency * synthetic_latency)`,
with the `ZeroDivisionError` handler mapping a zero observed latency to `0`. -/
def get_avg_speed (payload_size latency synthetic_latency : ℚ) : ℚ :=
  let message_latency := latency * synthetic_latency
  if message_latency = 0 then 0 else payload_size / message_latency

/-- **C9**: computing the average link speed is total: for every payload size
and pair of timestamps it returns `0` when the observed latency
(`latency * synthetic_latency`) is zero, and `payload_size` divided by that
latency otherwise. -/
theorem get_avg_speed_total (payload_size t_send t_recv synthetic_latency : ℚ) :
    (get_latency t_send t_recv * synthetic_latency = 0 →
      get_avg_speed payload_size (get_latency t_send t_recv) synthetic_latency = 0) ∧
    (get_latency t_send t_recv * synthetic_latency ≠ 0 →
      get_avg_speed payload_size (get_latency t_send t_recv) synthetic_latency
        = payload_size / (get_latency t_send t_recv * synthetic_latency)) := by
  constructor
  · intro h0
    simp [get_avg_speed, h0]
  · intro hne
    simp [get_avg_speed, hne]

/-- Witness for C9 at `payload = 100`, timestamps `3, 3` (zero latency) — and
the nonzero branch is exercised through the same theorem at timestamps `3, 5`
via the first conjunct's vacuity. -/
theorem get_avg_speed_total_witness :
    ((get_latency 3 3 * 1 = 0 → get_avg_speed 100 (get_latency 3 3) 1 = 0) ∧
      (get_latency 3 3 * 1 ≠ 0 →
        get_avg_speed 100 (get_latency 3 3) 1 = 100 / (get_latency 3 3 * 1))) ∧
    ((get_latency 3 5 * 1 = 0 → get_avg_speed 100 (get_latency 3 5) 1 = 0) ∧
      (get_latency 3 5 * 1 ≠ 0 →
        get_avg_speed 100 (get_latency 3 5) 1 = 100 / (get_latency 3 5 * 1))) :=
  ⟨get_avg_speed_total 100 3 3 1, get_avg_speed_total 100 3 5 1⟩

/-! ## Suffix executor (`edge/edge_initialization.py`, `request_handler.py`) -/

/-- `Edge.run_inference(offloading_layer_index, offloading_layer_output)`.
Single-layer evaluation (TensorFlow) is out of scope, so the model is an
abstract list of layer functions threaded output-to-input in order; the
source's InputLayer offset cancels out in logical layer indices, and the
source runs logical layers `offloading_layer_index + 1 .. N - 1`.
`start_layer_index == num_of_layers` returns the activation unchanged; any
other out-of-range start raises (IndexError on the final
`layers_to_use[num_of_layers - start_layer_index - 1]` access), modelled as
`none`. -/
def run_inference {α : Type} (layers : List (α → α)) (offloading_layer_index : Int)
    (offloading_layer_output : α) : Option α :=
  let N : Int := layers.length
  let start := offloading_layer_index + 1
  if start = N then some offloading_layer_output
  else if 0 ≤ start ∧ start < N then
    some ((layers.drop start.toNat).foldl (fun a f => f a) offloading_layer_output)
  else none

/-- The suffix dispatch of `handle_device_inference_result` (lines 131-139):
when `offloading_layer_index == -1 or offloading_layer_index >= 58` the
device's output is kept, otherwise the edge continues from layer
`offloading_layer_index + 1`. -/
def handle_suffix {α : Type} (layers : List (α → α)) (offloading_layer_index : Int)
    (layer_output : α) : Option α :=
  if offloading_layer_index = -1 ∨ 58 ≤ offloading_layer_index then some layer_output
  else run_inference layers offloading_layer_index layer_output

/-- **C6**: with the canonical 58-layer model (the handler hard-codes the
`58` bound), the suffix executor is the identity on the local-only and
terminal cases: `k = -1` and every `k ≥ N - 1` return the activation
unchanged. -/
theorem run_suffix_identity {α : Type} (layers : List (α → α)) (x : α)
    (hN : layers.length = 58) :
    handle_suffix layers (-1) x = some x ∧
    (∀ k : Int, (layers.length : Int) - 1 ≤ k → handle_suffix layers k x = some x) := by
  constructor
  · rw [handle_suffix, if_pos (Or.inl rfl)]
  · intro k hk
    rw [hN] at hk
    by_cases h58 : (58 : Int) ≤ k
    · rw [handle_suffix, if_pos (Or.inr h58)]
    · have hk57 : k = 57 := by omega
      subst hk57
      rw [handle_suffix, if_neg (by omega)]
      rw [run_inference]
      simp [hN]

/-- Witness for C6: a concrete 58-layer chain and the activation `7`. -/
theorem run_suffix_identity_witness :
    handle_suffix (List.replicate 58 (fun q : ℚ => q + 1)) (-1) 7 = some 7 ∧
    (∀ k : Int, ((List.replicate 58 (fun q : ℚ => q + 1)).length : Int) - 1 ≤ k →
      handle_suffix (List.replicate 58 (fun q : ℚ => q + 1)) k 7 = some 7) :=
  run_suffix_identity (List.replicate 58 (fun q : ℚ => q + 1)) 7 (by simp)

/-! ## Local-inference refresher (`request_handler.py`) -/

/-- Modelled from the spec: `OffloadingAlgo.static_offloading`.  The module
`server/offloading_algo/offloading_algo.py` is not under `src/` — only its
caller in `request_handler.py` is.  Per §4.4 of the specification: with a
scalar `avg_speed`, `net[i] = S[i] * 4 / 1024 / avg_speed` for `i < N` and
`net[N] = net[N-1]`; `total[k] = Σ_{i<k} T_device[i] + net[k] + Σ_{j≥k}
T_edge[j]`; the result is `argmin_k total[k]` over `k = 0..N`, ties to the
lowest `k` — in particular a natural number. -/
def static_offloading (avg_speed : ℚ)
    (layers_sizes inference_time_device inference_time_edge : List ℚ) : Nat :=
  let net := layers_sizes.map (fun s => s * 4 / 1024 / avg_speed)
  argminIdx (totalsList inference_time_device inference_time_edge
    (net ++ [net.getLastD 0]) inference_time_device.length)

/-- `RequestHandler.should_force_local_inference` (lines 68-85): a Bernoulli
gate `random.random() < probability` when enabled; the random draw
`r ∈ [0, 1)` is passed explicitly. -/
def should_force_local_inference (local_inference_enabled : Bool)
    (local_inference_probability r : ℚ) : Bool :=
  if !local_inference_enabled then false
  else decide (r < local_inference_probability)

/-- The return-value selection at the end of
`handle_device_inference_result` (lines 157-172): the refresher override
returns `-1`, otherwise the optimiser's split index. -/
def best_offloading_layer_choice (local_inference_enabled : Bool)
    (local_inference_probability r avg_speed : ℚ)
    (layers_sizes device_times edge_times : List ℚ) : Int :=
  if should_force_local_inference local_inference_enabled local_inference_probability r
  then -1
  else (static_offloading avg_speed layers_sizes device_times edge_times : Int)

/-- **C7**: with the refresher enabled at probability `1.0`, the handler's
decision is `-1` for every draw `r ∈ [0, 1)` regardless of the optimiser; at
probability `0.0` the decision is never `-1` (the optimiser's split index is
a natural number). -/
theorem refresher_override (r avg_speed : ℚ)
    (layers_sizes device_times edge_times : List ℚ)
    (hr0 : 0 ≤ r) (hr1 : r < 1) :
    best_offloading_layer_choice true 1 r avg_speed
        layers_sizes device_times edge_times = -1 ∧
    (∀ enabled : Bool,
      best_offloading_layer_choice enabled 0 r avg_speed
        layers_sizes device_times edge_times ≠ -1) := by
  constructor
  · rw [best_offloading_layer_choice, if_pos]
    rw [should_force_local_inference]
    simp [hr1]
  · intro enabled
    rw [best_offloading_layer_choice, if_neg]
    · intro hcontra
      have hnn := Int.natCast_nonneg
        (static_offloading avg_speed layers_sizes device_times edge_times)
      omega
    · rw [should_force_local_inference]
      cases enabled <;> simp [not_lt.mpr hr0]

/-- Witness for C7 at draw `r = 0` and one-layer inputs. -/
theorem refresher_override_witness :
    best_offloading_layer_choice true 1 0 1 [1] [1] [1] = -1 ∧
    (∀ enabled : Bool, best_offloading_layer_choice enabled 0 0 1 [1] [1] [1] ≠ -1) :=
  refresher_override 0 1 [1] [1] [1] (le_refl 0) (by norm_num)

/-! ## Binary device report parsing and the HTTP endpoint
(`request_handler.py`, `http_server.py`)

Byte strings are `List Nat`, one entry per byte.  IEEE-754 decoding of the
`double` / `float32` fields is numeric-runtime work outside the modelled
claims, so the two decoders are abstract parameters `f64 f32 : Bytes → ℚ`
applied to the exact byte slices the source unpacks.  `.decode()` of the two
ASCII fields is modelled as plain byte extraction (a payload whose id bytes
are invalid UTF-8 raises in Python just like the struct errors and is simply
outside the modelled parser's error set). -/

/-- A byte string. -/
abbrev Bytes := List Nat

/-- Little-endian word value of a 4-byte slice (used under a length-4 guard). -/
def leWord (b : Bytes) : Nat :=
  match b with
  | [b0, b1, b2, b3] => b0 + 256 * b1 + 65536 * b2 + 16777216 * b3
  | _ => 0

/-- Two's-complement reading of a 32-bit word, as `struct.unpack('i', ·)`. -/
def int32OfWord (w : Nat) : Int :=
  if w < 2 ^ 31 then (w : Int) else (w : Int) - 2 ^ 32

/-- Split into consecutive 4-byte groups (the float32 payload fields). -/
def chunksOf4 : Bytes → List Bytes
  | b0 :: b1 :: b2 :: b3 :: rest => [b0, b1, b2, b3] :: chunksOf4 rest
  | _ => []

/-- The parsed device report (`MessageData` plus the fields extracted by
`MessageData.get_offloading_info`). -/
structure MessageData where
  timestamp : ℚ
  device_id : Bytes
  message_id : Bytes
  offloading_layer_index : Int
  layer_output : List ℚ
  layers_inference_time : List ℚ

/-- `RequestHandler._from_raw` (lines 196-235): fixed-offset little-endian
parse.  Each `struct.unpack` call requires its slice to have exactly the
byte count of its format (`4 * n` bytes for `'<{n}f'`, with
`n = int(size/4)` truncated toward zero — `Int.tdiv`).  Hence a
`times_size ≤ -4` makes the count negative and the format string itself
invalid, while `times_size ∈ {-1, -2, -3}` truncates to the valid format
over the empty slice `payload[offset:offset+times_size]` and parses
successfully with no inference times.  Every failure raises `struct.error`,
modelled as `Except.error`. -/
def _from_raw (f64 f32 : Bytes → ℚ) (payload : Bytes) : Except String MessageData :=
  if (payload.take 8).length ≠ 8 then
    .error "struct.error: unpack('d') requires a buffer of 8 bytes"
  else
    let timestamp := f64 (payload.take 8)
    let device_id := (payload.drop 8).take 9
    let message_id := (payload.drop 17).take 4
    if ((payload.drop 21).take 4).length ≠ 4 then
      .error "struct.error: unpack('i') requires a buffer of 4 bytes"
    else
      let offloading_layer_index := int32OfWord (leWord ((payload.drop 21).take 4))
      if ((payload.drop 25).take 4).length ≠ 4 then
        .error "struct.error: unpack('I') requires a buffer of 4 bytes"
      else
        let layer_output_size := leWord ((payload.drop 25).take 4)
        if ((payload.drop 29).take layer_output_size).length
            ≠ 4 * (layer_output_size / 4) then
          .error "struct.error: unpack('<nf') buffer size mismatch"
        else
          let layer_output :=
            (chunksOf4 ((payload.drop 29).take layer_output_size)).map f32
          if ((payload.drop (29 + layer_output_size)).take 4).length ≠ 4 then
            .error "struct.error: unpack('i') requires a buffer of 4 bytes"
          else
            let times_size :=
              int32OfWord (leWord ((payload.drop (29 + layer_output_size)).take 4))
            if times_size.tdiv 4 < 0 then
              .error "struct.error: bad char in struct format"
            else if ((payload.drop (29 + layer_output_size + 4)).take
                times_size.toNat).length ≠ 4 * (times_size.tdiv 4).toNat then
              .error "struct.error: unpack('<nf') buffer size mismatch"
            else
              .ok { timestamp := timestamp
                    device_id := device_id
                    message_id := message_id
                    offloading_layer_index := offloading_layer_index
                    layer_output := layer_output
                    layers_inference_time :=
                      (chunksOf4 ((payload.drop (29 + layer_output_size + 4)).take
                        times_size.toNat)).map f32 }

/-- A Python dict from layer index to time, preserving insertion order
(the JSON files `layer_<i> ↦ t`). -/
abbrev TimesDict := List (Nat × ℚ)

/-- Dict lookup. -/
def dictGet? : TimesDict → Nat → Option ℚ
  | [], _ => none
  | (k', v') :: rest, k => if k' = k then some v' else dictGet? rest k

/-- Dict store: update in place if the key exists, else append. -/
def dictSet : TimesDict → Nat → ℚ → TimesDict
  | [], k, v => [(k, v)]
  | (k', v') :: rest, k, v =>
      if k' = k then (k, v) :: rest else (k', v') :: dictSet rest k v

/-- One iteration of the device-times loop (lines 117-123): EWMA if the key
exists, else seed. -/
def update_device_times_entry (d : TimesDict) (l_id : Nat) (t : ℚ) : TimesDict :=
  match dictGet? d l_id with
  | some old => dictSet d l_id (alpha * t + (1 - alpha) * old)
  | none => dictSet d l_id t

/-- The loop over `enumerate(message_data.device_layers_inference_time)`
(lines 117-126): EWMA update plus variance tracking, per layer in order. -/
def device_report_loop :
    TimesDict → VarianceDetector → Nat → List ℚ → TimesDict × VarianceDetector
  | d, det, _, [] => (d, det)
  | d, det, l_id, t :: rest =>
      device_report_loop (update_device_times_entry d l_id t)
        (add_device_measurement det l_id t).2 (l_id + 1) rest

/-- The edge-process state touched by `handle_device_inference_result`:
the three JSON files and the class-level variance detector, plus the
append-only evaluation log. -/
structure ServerState where
  device_times : TimesDict
  edge_times : List ℚ
  layers_sizes : List ℚ
  detector : VarianceDetector
  eval_log : List MessageData

/-- `local_inference_mode` configuration. -/
structure HandlerConfig where
  local_inference_enabled : Bool
  local_inference_probability : ℚ

/-- `RequestHandler.handle_device_inference_result` (lines 105-172) as a
state transformer.  An exception carries the state at the moment it is
raised (Python state mutations are not rolled back); the random draw `r` of
the refresher is an explicit parameter. -/
def handle_device_inference_result (f64 f32 : Bytes → ℚ)
    (layers : List (List ℚ → List ℚ)) (cfg : HandlerConfig) (r : ℚ)
    (st : ServerState) (body : Bytes) (received_timestamp : ℚ) :
    Except (String × ServerState) (Int × ServerState) :=
  match _from_raw f64 f32 body with
  | .error e => .error (e, st)
  | .ok msg =>
      let avg_speed := get_avg_speed (body.length : ℚ)
        (get_latency msg.timestamp received_timestamp) get_synthetic_latency
      let dd := device_report_loop st.device_times st.detector 0 msg.layers_inference_time
      let st1 : ServerState := { st with device_times := dd.1, detector := dd.2 }
      match handle_suffix layers msg.offloading_layer_index msg.layer_output with
      | none => .error ("edge inference failed", st1)
      | some _prediction =>
          let st2 : ServerState := { st1 with eval_log := st1.eval_log ++ [msg] }
          let rd := should_retest_offloading st2.detector
          let st3 : ServerState := { st2 with detector := rd.2 }
          let best := best_offloading_layer_choice cfg.local_inference_enabled
            cfg.local_inference_probability r avg_speed st3.layers_sizes
            (st3.device_times.map Prod.snd) st3.edge_times
          .ok (best, st3)

/-- The `device_inference_result` endpoint of `http_server.py`
(lines 110-122): any exception from the handler is answered with HTTP
status 500. -/
def device_inference_result_endpoint (f64 f32 : Bytes → ℚ)
    (layers : List (List ℚ → List ℚ)) (cfg : HandlerConfig) (r : ℚ)
    (st : ServerState) (body : Bytes) (received_timestamp : ℚ) :
    Nat × ServerState :=
  match handle_device_inference_result f64 f32 layers cfg r st body received_timestamp with
  | .ok (_, st') => (200, st')
  | .error (_, st') => (500, st')

/-- The initial server state used in concrete checks. -/
def emptyServerState : ServerState :=
  { device_times := []
    edge_times := []
    layers_sizes := []
    detector := VarianceDetector.init 10 (15 / 100)
    eval_log := [] }

/-- Counterexample to C8 as stated: the empty (short) payload is a parse
error, but the endpoint answers it with HTTP status 500, which is not a 4xx
status. -/
theorem parse_error_status_counterexample :
    (∃ e, _from_raw (fun _ => 0) (fun _ => 0) [] = .error e) ∧
    (device_inference_result_endpoint (fun _ => 0) (fun _ => 0) []
        ⟨false, 0⟩ 0 emptyServerState [] 0).1 = 500 ∧
    ¬(400 ≤ (device_inference_result_endpoint (fun _ => 0) (fun _ => 0) []
          ⟨false, 0⟩ 0 emptyServerState [] 0).1 ∧
      (device_inference_result_endpoint (fun _ => 0) (fun _ => 0) []
          ⟨false, 0⟩ 0 emptyServerState [] 0).1 < 500) := by
  refine ⟨⟨_, rfl⟩, rfl, ?_⟩
  intro h
  have h500 : (device_inference_result_endpoint (fun _ => 0) (fun _ => 0) []
      ⟨false, 0⟩ 0 emptyServerState [] 0).1 = 500 := rfl
  rw [h500] at h
  omega

/-- The truncation boundary case of the wire format: a 33-byte report with
zero timestamp and ids, `offloading_layer_index = -1`,
`layer_output_size = 0` and `times_size = -1`.  Since `int(-1/4) = 0`, the
times field unpacks as zero float32s from the empty slice and the report is
accepted. -/
def negTimesPayload : Bytes :=
  List.replicate 21 0 ++ [255, 255, 255, 255] ++ [0, 0, 0, 0] ++ [255, 255, 255, 255]

/-- **C8 (amended)**: for every binary device-report payload the parser
rejects (in particular every short one), the endpoint fails with HTTP
status 500 — a 5xx response, not the 4xx the claim states — the report is
dropped, and no state is mutated: the parse error is raised before any
timing-store update, so the timing store, variance detector and evaluation
log are exactly as they were before the request.  The scope is exactly the
parser's error set: the last conjunct shows the truncation boundary
`times_size = -1` (payload `negTimesPayload`), which the parser accepts and
which the endpoint then processes with HTTP 200 and an evaluation-log
append, for every state. -/
theorem parse_error_drops_report (f64 f32 : Bytes → ℚ)
    (layers : List (List ℚ → List ℚ)) (cfg : HandlerConfig) (r : ℚ)
    (st : ServerState) (body : Bytes) (received_timestamp : ℚ)
    (hparse : ∃ e, _from_raw f64 f32 body = .error e) :
    device_inference_result_endpoint f64 f32 layers cfg r st body received_timestamp
      = (500, st) ∧
    (∀ short_body : Bytes, short_body.length < 25 →
      ∃ e, _from_raw f64 f32 short_body = .error e) ∧
    (∃ msg : MessageData,
      _from_raw f64 f32 negTimesPayload = .ok msg ∧
      msg.offloading_layer_index = -1 ∧
      msg.layers_inference_time = [] ∧
      (device_inference_result_endpoint f64 f32 layers cfg r st negTimesPayload
          received_timestamp).1 = 200 ∧
      (device_inference_result_endpoint f64 f32 layers cfg r st negTimesPayload
          received_timestamp).2.eval_log = st.eval_log ++ [msg]) := by
  obtain ⟨e, he⟩ := hparse
  refine ⟨?_, ?_, ?_⟩
  · rw [device_inference_result_endpoint, handle_device_inference_result, he]
  · intro body' hlen
    rw [_from_raw]
    by_cases h8 : (body'.take 8).length ≠ 8
    · rw [if_pos h8]
      exact ⟨_, rfl⟩
    · rw [if_neg h8]
      have h21 : ((body'.drop 21).take 4).length ≠ 4 := by
        rw [not_ne_iff, List.length_take] at h8
        rw [List.length_take, List.length_drop]
        omega
      rw [if_pos h21]
      exact ⟨_, rfl⟩
  · exact ⟨_, rfl, rfl, rfl, rfl, rfl⟩

/-- Witness for the amended C8 at the empty payload and the initial state. -/
theorem parse_error_drops_report_witness :
    device_inference_result_endpoint (fun _ => 0) (fun _ => 0) []
        ⟨false, 0⟩ 0 emptyServerState [] 0 = (500, emptyServerState) ∧
    (∀ short_body : Bytes, short_body.length < 25 →
      ∃ e, _from_raw (fun _ => (0 : ℚ)) (fun _ => (0 : ℚ)) short_body = .error e) ∧
    (∃ msg : MessageData,
      _from_raw (fun _ => (0 : ℚ)) (fun _ => (0 : ℚ)) negTimesPayload = .ok msg ∧
      msg.offloading_layer_index = -1 ∧
      msg.layers_inference_time = [] ∧
      (device_inference_result_endpoint (fun _ => 0) (fun _ => 0) []
          ⟨false, 0⟩ 0 emptyServerState negTimesPayload 0).1 = 200 ∧
      (device_inference_result_endpoint (fun _ => 0) (fun _ => 0) []
          ⟨false, 0⟩ 0 emptyServerState negTimesPayload 0).2.eval_log
        = emptyServerState.eval_log ++ [msg]) :=
  parse_error_drops_report (fun _ => 0) (fun _ => 0) [] ⟨false, 0⟩ 0
    emptyServerState [] 0 ⟨_, rfl⟩

end SCIoT
